import Mathlib

/-!
Verification of the Dataset-Generator single-page application against its
specification.  The source under scrutiny consists of:

  * `src/dataset-studio/src/pages/Datasets.jsx`   (dataset browser, CSV preview)
  * `src/dataset-studio/src/pages/Dashboard.jsx`  (form renderer / submitter)
  * `src/dataset-studio/src/config/datasetConfigs.js` (recipe registry)
  * `src/dataset-studio/src/App.jsx`              (navigation shell)

The JavaScript is shallowly embedded: JS strings are Lean `String`
(manipulated through their `List Char` data so that everything reduces in the
kernel), JS objects whose keys are assigned in program order are association
lists with in-place overwrite, network calls become explicit request values
paired with continuations, and React state updates become pure state
transition functions.
-/

/-! ## JavaScript string primitives

`String.prototype.split` with a one-character separator (the source only ever
splits on "\n" and ","), and `String.prototype.trim`.  JS `split` never
returns an empty array: splitting the empty string yields `[""]`.
-/

/-- Characters stripped by JS `trim` (WhiteSpace and LineTerminator; the
source never feeds the exotic Unicode space characters, so the ASCII set
models it). -/
def jsSpace (c : Char) : Bool :=
  c = ' ' || c = '\t' || c = '\n' || c = '\r' || c = '\x0b' || c = '\x0c'

/-- Worker for `jsSplit`: `acc` holds the current field, reversed. -/
def jsSplitAux (sep : Char) : List Char → List Char → List (List Char)
  | [], acc => [acc.reverse]
  | c :: rest, acc =>
    if c = sep then acc.reverse :: jsSplitAux sep rest []
    else jsSplitAux sep rest (c :: acc)

/-- JS `s.split(sep)` for a single-character separator. -/
def jsSplit (sep : Char) (s : String) : List String :=
  (jsSplitAux sep s.data []).map String.mk

/-- JS `s.trim()`. -/
def jsTrim (s : String) : String :=
  String.mk (((s.data.dropWhile jsSpace).reverse.dropWhile jsSpace).reverse)

/-! ## JavaScript objects as association lists

`obj[k] = v` overwrites the value of an existing key in place (keeping its
original position in the key order) and otherwise appends the new key at the
end; `obj[k]` reads the entry.  The object spread `{...obj, [k]: v}` used by
`handleChange` has the same key-order semantics.
-/

/-- JS property assignment `obj[k] = v`. -/
def objInsert {α : Type} (obj : List (String × α)) (k : String) (v : α) :
    List (String × α) :=
  if obj.any (fun p => p.1 = k) then
    obj.map (fun p => if p.1 = k then (k, v) else p)
  else
    obj ++ [(k, v)]

/-- JS property read `obj[k]` (`none` = `undefined`): the value of the first
— and, for objects built by `objInsert`, only — entry with that key. -/
def objGet {α : Type} : List (String × α) → String → Option α
  | [], _ => none
  | p :: t, k => if p.1 = k then some p.2 else objGet t k

/-- The key order of a JS object. -/
def objKeys {α : Type} (obj : List (String × α)) : List String :=
  obj.map Prod.fst

/-! ## Tabular Preview Pipeline — `parseCSV` (Datasets.jsx, lines 60-86)

```js
const parseCSV = (csvText) => {
  const rows = csvText.trim().split("\n").map((row) => row.split(","));
  if (!rows.length) return;
  const headers = rows[0];
  const dataRows = rows.slice(1);
  const cols = headers.map((header) => ({ headerName: header, field: header }));
  const formattedRows = dataRows.map((row) => {
    let obj = {};
    headers.forEach((header, i) => { obj[header] = row[i] || ""; });
    return obj;
  });
  setColumnDefs(cols);
  setRowData(formattedRows);
};
```

Each column definition carries the header name twice (`headerName` and
`field`), so a column is represented by that one string.  `row[i] || ""` is
`""` exactly when `i` is out of range or the cell is the empty string, which
is `row.getD i ""`.  The early `return` (modelled as `none`) leaves the grid
state untouched; it would require `split` to return an empty array, which JS
`split` never does.
-/

/-- The parsed table: column names (in header order, duplicates kept) and one
key-ordered object per data row. -/
structure TablePreview where
  columns : List String
  rows : List (List (String × String))
deriving DecidableEq, Repr

/-- `headers.forEach((header, i) => { obj[header] = row[i] || ""; })`,
iterating with explicit index `i`. -/
def formatRowAux (obj : List (String × String)) :
    List String → List String → Nat → List (String × String)
  | [], _, _ => obj
  | h :: t, row, i => formatRowAux (objInsert obj h (row.getD i "")) t row (i + 1)

/-- Builds one formatted row object from the header list and a raw row. -/
def formatRow (headers row : List String) : List (String × String) :=
  formatRowAux [] headers row 0

/-- `parseCSV`: `none` models the early return (grid state untouched). -/
def parseCSV (csvText : String) : Option TablePreview :=
  match (jsSplit '\n' (jsTrim csvText)).map (fun row => jsSplit ',' row) with
  | [] => none
  | headers :: dataRows =>
    some { columns := headers, rows := dataRows.map (formatRow headers) }

/-! ## Dataset Browser — DatasetsPage (Datasets.jsx)

State cells of the component and the three backend call sites:

```js
const BASE_URL = "http://localhost:8000";
const fetchDatasets = async () => {
  const res = await axios.get(`${BASE_URL}/datasets?dataset_type=${datasetType}`);
  setDatasets(res.data.datasets);
};
useEffect(() => { fetchDatasets(); }, [datasetType]);
const deleteDataset = async (filename) => {
  await axios.delete(`${BASE_URL}/datasets/${datasetType}/${filename}`);
  fetchDatasets();
};
```

A backend call is embedded as the request value it issues, paired with the
continuation applied to the parsed response once the call resolves.
-/

def BASE_URL : String := "http://localhost:8000"

/-- The useState cells of DatasetsPage. -/
structure DatasetsState where
  datasetType : String
  datasets : List String
  rowData : List (List (String × String))
  columnDefs : List String
  showModal : Bool
  selectedFile : String
deriving DecidableEq, Repr

/-- An HTTP request issued by the browser page. -/
inductive DsRequest where
  | getReq (url : String)
  | deleteReq (url : String)
deriving DecidableEq, Repr

/-- `fetchDatasets`: one GET of the list URL for the currently selected type;
the continuation stores `res.data.datasets`, replacing the previous list. -/
def fetchDatasets (s : DatasetsState) : DsRequest × (List String → DatasetsState) :=
  (.getReq (BASE_URL ++ "/datasets?dataset_type=" ++ s.datasetType),
   fun files => { s with datasets := files })

/-- The type selector onChange (`setDatasetType`) followed by the
`useEffect(..., [datasetType])` run it triggers: the requests issued and the
continuation for the list response. -/
def handleTypeChange (s : DatasetsState) (k : String) :
    List DsRequest × (List String → DatasetsState) :=
  let s1 := { s with datasetType := k }
  let fd := fetchDatasets s1
  ([fd.1], fd.2)

/-- `deleteDataset(filename)`: the DELETE, then — only after it resolves —
the single `fetchDatasets()` re-fetch, in issue order. -/
def deleteDataset (s : DatasetsState) (filename : String) :
    List DsRequest × (List String → DatasetsState) :=
  let delReq := DsRequest.deleteReq
    (BASE_URL ++ "/datasets/" ++ s.datasetType ++ "/" ++ filename)
  let fd := fetchDatasets s
  ([delReq, fd.1], fd.2)

/-- `fetchCSV` response handling: run `parseCSV` (updating the grid cells
unless it early-returns), record the filename, open the modal. -/
def applyFetchCSV (s : DatasetsState) (filename csvText : String) : DatasetsState :=
  let s1 := match parseCSV csvText with
    | none => s
    | some p => { s with columnDefs := p.columns, rowData := p.rows }
  { s1 with selectedFile := filename, showModal := true }

/-! ## Dataset Recipe Registry — `datasetConfigs` (datasetConfigs.js)

A verbatim transcription of the static configuration object.  Access
`datasetConfigs[selectedDataset]` is a total function returning `none`
(`undefined`) for unknown keys.
-/

/-- The `type` strings that occur in the registry. -/
inductive FieldKind where
  | text
  | number
  | textarea
  | select
  | file
deriving DecidableEq, Repr

/-- One FieldDescriptor of the registry (`options` empty and `step` absent
when the JS literal omits them). -/
structure FieldDesc where
  name : String
  label : String
  kind : FieldKind
  options : List String
  step : Option String
deriving DecidableEq, Repr

/-- One recipe of the registry. -/
structure Config where
  label : String
  endpoint : String
  fields : List FieldDesc
deriving DecidableEq, Repr

/-- The 35-entry language option list shared by the two multilingual select
fields. -/
def languageOptions : List String :=
  ["Arabic", "Azerbaijani", "Basque", "Catalan", "Chinese", "Czech", "Danish",
   "Dutch", "English", "Esperanto", "Finnish", "French", "Galician", "German",
   "Greek", "Hebrew", "Hindi", "Hungarian", "Indonesian", "Irish", "Italian",
   "Japanese", "Kyrgyz", "Korean", "Malay", "Persian", "Polish", "Portuguese",
   "Portuguese (Brazil)", "Russian", "Slovak", "Spanish", "Swedish", "Turkish",
   "Ukrainian", "Urdu"]

def sftConfig : Config :=
  { label := "SFT (Instruction Tuning)"
    endpoint := "/generate/sft"
    fields :=
      [{ name := "topic", label := "Topic", kind := .text, options := [], step := none },
       { name := "model", label := "Model", kind := .text, options := [], step := none },
       { name := "style", label := "Style", kind := .select,
         options := ["highly friendly", "begineer friendly",
                     "problem-solving oriented", "conversational"], step := none },
       { name := "num_pairs", label := "Number of Pairs", kind := .number,
         options := [], step := none },
       { name := "language", label := "Language", kind := .text, options := [], step := none },
       { name := "temperature", label := "Temperature", kind := .number,
         options := [], step := some "0.1" },
       { name := "output_name", label := "Output Name", kind := .text,
         options := [], step := none }] }

def nlSqlConfig : Config :=
  { label := "NL → SQL"
    endpoint := "/generate/nl_sql"
    fields :=
      [{ name := "schema_file", label := "Schema File (.json)", kind := .file,
         options := [], step := none },
       { name := "model", label := "Model", kind := .text, options := [], step := none },
       { name := "num_samples", label := "Number of Samples", kind := .number,
         options := [], step := none },
       { name := "output_name", label := "Output Name", kind := .text,
         options := [], step := none }] }

def ragQaConfig : Config :=
  { label := "RAG-QA"
    endpoint := "/generate/rag_qa"
    fields :=
      [{ name := "context_file", label := "Context File (.txt / .pdf)", kind := .file,
         options := [], step := none },
       { name := "model", label := "Model", kind := .text, options := [], step := none },
       { name := "difficulty", label := "Difficulty", kind := .select,
         options := ["easy", "medium", "hard"], step := none },
       { name := "num_pairs", label := "Number of QA Pairs", kind := .number,
         options := [], step := none },
       { name := "output_name", label := "Output Name", kind := .text,
         options := [], step := none }] }

def classificationConfig : Config :=
  { label := "Classification"
    endpoint := "/generate/classification"
    fields :=
      [{ name := "task_description", label := "Task Description", kind := .textarea,
         options := [], step := none },
       { name := "model", label := "Model", kind := .text, options := [], step := none },
       { name := "num_samples", label := "Number of Samples", kind := .number,
         options := [], step := none },
       { name := "output_name", label := "Output Name", kind := .text,
         options := [], step := none }] }

def textToCodeConfig : Config :=
  { label := "Text → Code"
    endpoint := "/generate/text_to_code"
    fields :=
      [{ name := "domain", label := "Domain", kind := .text, options := [], step := none },
       { name := "programming_language", label := "Programming Language", kind := .text,
         options := [], step := none },
       { name := "model", label := "Model", kind := .text, options := [], step := none },
       { name := "num_samples", label := "Number of Samples", kind := .number,
         options := [], step := none },
       { name := "temperature", label := "Temperature", kind := .number,
         options := [], step := some "0.1" },
       { name := "output_name", label := "Output Name", kind := .text,
         options := [], step := none }] }

def multilingualConfig : Config :=
  { label := "Multilingual"
    endpoint := "/generate/multilingual"
    fields :=
      [{ name := "topic", label := "Topic", kind := .text, options := [], step := none },
       { name := "source_language", label := "Source Language", kind := .select,
         options := languageOptions, step := none },
       { name := "destination_language", label := "Target Language", kind := .select,
         options := languageOptions, step := none },
       { name := "model", label := "Generation Model", kind := .text,
         options := [], step := none },
       { name := "num_samples", label := "Number of Samples", kind := .number,
         options := [], step := none },
       { name := "temperature", label := "Temperature", kind := .number,
         options := [], step := some "0.1" },
       { name := "output_name", label := "Output Name", kind := .text,
         options := [], step := none }] }

/-- `datasetConfigs[key]`. -/
def datasetConfigs : String → Option Config
  | "sft" => some sftConfig
  | "nl_sql" => some nlSqlConfig
  | "rag_qa" => some ragQaConfig
  | "classification" => some classificationConfig
  | "text_to_code" => some textToCodeConfig
  | "multilingual" => some multilingualConfig
  | _ => none

/-! ## Form Renderer / Submitter — Dashboard (Dashboard.jsx)

```js
const handleSubmit = async () => {
  setLoading(true);
  setMessage(null);
  try {
    const form = new FormData();
    config.fields.forEach((field) => {
      if (!formData[field.name]) { throw new Error(`${field.label} is required`); }
      if (field.name === "num_pairs") {
        form.append(field.name, Number(formData[field.name]));
      } else {
        form.append(field.name, formData[field.name]);
      }
    });
    const response = await fetch(`${API_BASE}${config.endpoint}`, { method: "POST", body: form });
    const result = await response.json();
    if (!response.ok) { throw new Error(result.detail || "Backend error"); }
    setMessage({ type: "success", text: result.message });
  } catch (error) {
    setMessage({ type: "error", text: error.message });
  } finally {
    setLoading(false);
  }
};
```

A stored form value is either a string (text, number, textarea, select
inputs all store `e.target.value`, a string) or a file handle.
`!formData[field.name]` is true exactly when the key is missing
(`undefined`) or holds the empty string; a File object is always truthy.
`Number(x)` is kept abstract as the constructor `FormEntry.jsNumberOf`: the
claims only need that the coercion was applied, not its floating-point
value.  The single awaited response is passed in as an explicit
`BackendResponse` (its parsed JSON body may or may not carry `detail` /
`message`), and the whole handler is flattened into the ordered list of
state-update and network effects it performs.
-/

/-- A value stored in `formData`. -/
inductive JsValue where
  | str (s : String)
  | file (name : String)
deriving DecidableEq, Repr

/-- JS truthiness test `!formData[field.name]` on an optional stored value. -/
def jsFalsy : Option JsValue → Bool
  | none => true
  | some (.str s) => s = ""
  | some (.file _) => false

/-- A value appended to the multipart FormData: either as entered, or with
`Number(...)` applied first. -/
inductive FormEntry where
  | raw (v : JsValue)
  | jsNumberOf (v : JsValue)
deriving DecidableEq, Repr

/-- The `config.fields.forEach` loop: the first field whose stored value is
falsy aborts with the validation message, otherwise every field contributes
one entry, in declaration order, `num_pairs` being coerced. -/
def buildForm (values : String → Option JsValue) :
    List FieldDesc → Except String (List (String × FormEntry))
  | [] => .ok []
  | f :: fs =>
    if jsFalsy (values f.name) then
      .error (f.label ++ " is required")
    else
      match buildForm values fs with
      | .error e => .error e
      | .ok rest =>
        .ok ((f.name,
              if f.name = "num_pairs" then
                FormEntry.jsNumberOf ((values f.name).getD (.str ""))
              else
                FormEntry.raw ((values f.name).getD (.str ""))) :: rest)

/-- The parsed JSON body and status of the one awaited POST response. -/
structure BackendResponse where
  ok : Bool
  detail : Option String
  message : Option String
deriving DecidableEq, Repr

/-- The retained submission outcome (`message.type` / `message.text`);
`result.message` may be absent on a success body. -/
inductive Outcome where
  | success (text : Option String)
  | failure (text : String)
deriving DecidableEq, Repr

/-- One observable step of `handleSubmit`, in program order. -/
inductive Effect where
  | setLoading (b : Bool)
  | setMessage (m : Option Outcome)
  | post (url : String) (body : List (String × FormEntry))
deriving DecidableEq, Repr

/-- JS `x || dflt` on the optional string `result.detail`: the empty string
is falsy, so it also falls back. -/
def jsOrString : Option String → String → String
  | some s, dflt => if s = "" then dflt else s
  | none, dflt => dflt

/-- The full `handleSubmit` flow as its ordered effect list.  The validation
throw and the non-ok-status throw land in the same catch, which stores the
error message; the finally clause always clears the loading flag last. -/
def handleSubmit (apiBase : String) (config : Config)
    (values : String → Option JsValue) (resp : BackendResponse) : List Effect :=
  [.setLoading true, .setMessage none] ++
  (match buildForm values config.fields with
   | .error msg => [.setMessage (some (.failure msg))]
   | .ok body =>
     .post (apiBase ++ config.endpoint) body ::
       if resp.ok then
         [.setMessage (some (.success resp.message))]
       else
         [.setMessage (some (.failure (jsOrString resp.detail "Backend error")))]) ++
  [.setLoading false]

/-- The POST requests an effect trace issues, in order. -/
def postsOf (t : List Effect) : List (String × List (String × FormEntry)) :=
  t.filterMap fun e => match e with
    | .post u b => some (u, b)
    | _ => none

/-- The values successively stored in the `message` cell by a trace. -/
def messagesOf (t : List Effect) : List (Option Outcome) :=
  t.filterMap fun e => match e with
    | .setMessage m => some m
    | _ => none

/-- The outcome left in the `message` cell after the trace runs. -/
def retainedMessage (t : List Effect) : Option (Option Outcome) :=
  (messagesOf t).getLast?

/-! ## Navigation Shell — App (App.jsx) with React state semantics

```js
export default function App() {
  const [selectedDataset, setSelectedDataset] = useState("sft");
  const [activePage, setActivePage] = useState("generate");
  ...
  {activePage === "generate" ? (<Dashboard selectedDataset={selectedDataset} />) : (<Datasets />)}
}
```

and, inside Dashboard,

```js
const [formData, setFormData] = useState({});
const handleChange = (e, field) => { setFormData({ ...formData, [field.name]: v }); };
```

React keeps the `useState` cells of a child component as long as the child
stays mounted at the same tree position with the same element type and key.
`Dashboard` is rendered with no `key` attribute, so changing only the
`selectedDataset` prop re-renders the same instance and its `formData` cell
survives; `formData` is reinitialised to the empty object only when the app
switches away from the generate page (unmounting `Dashboard`) and back.
`dashboardForm = none` models the unmounted state.
-/

/-- The shell state: the two App cells plus the `formData` cell of the
mounted Dashboard instance (`none` when Dashboard is unmounted). -/
structure AppState where
  activePage : String
  selectedDataset : String
  dashboardForm : Option (List (String × JsValue))
deriving DecidableEq, Repr

/-- The user events the shell reacts to. -/
inductive AppEvent where
  | setActivePage (p : String)
  | setSelectedDataset (k : String)
  | editField (name : String) (v : JsValue)
deriving DecidableEq, Repr

/-- Initial render: generate page active, sft selected, Dashboard mounted
with an empty `formData`. -/
def appInit : AppState :=
  { activePage := "generate", selectedDataset := "sft", dashboardForm := some [] }

/-- One event step under React reconciliation of the App tree. -/
def appStep (s : AppState) : AppEvent → AppState
  | .setActivePage p =>
    if p = "generate" then
      { s with activePage := p,
               dashboardForm :=
                 if s.activePage = "generate" then s.dashboardForm else some [] }
    else
      { s with activePage := p, dashboardForm := none }
  | .setSelectedDataset k =>
    { s with selectedDataset := k }
  | .editField n v =>
    match s.dashboardForm with
    | some fd => { s with dashboardForm := some (objInsert fd n v) }
    | none => s

/-- Folding a user event sequence from a state. -/
def appRun (s : AppState) (evs : List AppEvent) : AppState :=
  evs.foldl appStep s


/-! ## Association-list lemmas for JS object semantics -/

theorem objGet_map_overwrite_ne {α : Type} (t : List (String × α)) (k n : String)
    (v : α) (hnk : n ≠ k) :
    objGet (t.map (fun p => if p.1 = k then (k, v) else p)) n = objGet t n := by
  induction t with
  | nil => rfl
  | cons q rest ih =>
    by_cases hq : q.1 = k
    · have h1 : (k = n) = False := eq_false fun h => hnk h.symm
      have h2 : (q.1 = n) = False := eq_false fun h => hnk (h ▸ hq)
      simp only [List.map_cons, if_pos hq, objGet, h1, h2, if_false]
      exact ih
    · simp only [List.map_cons, if_neg hq, objGet]
      by_cases hqn : q.1 = n
      · simp [hqn]
      · simp only [if_neg hqn]
        exact ih

theorem objGet_objInsert {α : Type} (obj : List (String × α)) (k n : String) (v : α) :
    objGet (objInsert obj k v) n = if n = k then some v else objGet obj n := by
  induction obj with
  | nil =>
    by_cases h : n = k
    · subst h; simp [objInsert, objGet]
    · simp [objInsert, objGet, h, eq_false fun h2 : k = n => h h2.symm]
  | cons q t ih =>
    by_cases hq : q.1 = k
    · have hany : ((q :: t).any fun p => decide (p.1 = k)) = true := by
        simp [hq]
      unfold objInsert
      rw [if_pos hany]
      by_cases hn : n = k
      · subst hn
        simp [hq, objGet]
      · simp only [List.map_cons, if_pos hq, objGet, if_neg hn]
        rw [if_neg fun h : (k, v).1 = n => hn ((show (k, v).1 = k from rfl) ▸ h).symm]
        rw [objGet_map_overwrite_ne t k n v hn]
        rw [if_neg fun h : q.1 = n => hn (h ▸ hq)]
    · have hsplit : objInsert (q :: t) k v = q :: objInsert t k v := by
        by_cases ht : (t.any fun p => decide (p.1 = k)) = true
        · have hany : ((q :: t).any fun p => decide (p.1 = k)) = true := by
            simp [ht]
          unfold objInsert
          rw [if_pos hany, if_pos ht, List.map_cons, if_neg hq]
        · have hany : ¬ ((q :: t).any fun p => decide (p.1 = k)) = true := by
            simp only [List.any_cons, Bool.or_eq_true, decide_eq_true_eq]
            rintro (h | h)
            · exact hq h
            · exact ht h
          unfold objInsert
          rw [if_neg hany, if_neg ht]
          rfl
      rw [hsplit]
      simp only [objGet]
      by_cases hqn : q.1 = n
      · have hn : (n = k) = False := eq_false fun h => hq (hqn.trans h)
        simp [hqn, hn]
      · simp only [if_neg hqn]
        exact ih

theorem objGet_eq_none_iff {α : Type} (obj : List (String × α)) (n : String) :
    objGet obj n = none ↔ n ∉ objKeys obj := by
  induction obj with
  | nil => simp [objGet, objKeys]
  | cons q t ih =>
    simp only [objGet, objKeys, List.map_cons, List.mem_cons]
    by_cases hq : q.1 = n
    · simp [hq]
    · rw [if_neg hq]
      simp only [objKeys] at ih
      rw [ih]
      constructor
      · rintro h (h1 | h2)
        · exact hq h1.symm
        · exact h h2
      · intro h h2
        exact h (Or.inr h2)

theorem objKeys_map_overwrite {α : Type} (obj : List (String × α)) (k : String) (v : α) :
    objKeys (obj.map (fun p => if p.1 = k then (k, v) else p)) = objKeys obj := by
  induction obj with
  | nil => rfl
  | cons q t ih =>
    simp only [objKeys, List.map_cons] at *
    by_cases hq : q.1 = k
    · rw [if_pos hq, ih, hq]
    · rw [if_neg hq, ih]

theorem objKeys_objInsert {α : Type} (obj : List (String × α)) (k : String) (v : α) :
    objKeys (objInsert obj k v) =
      if (obj.any fun p => decide (p.1 = k)) = true then objKeys obj
      else objKeys obj ++ [k] := by
  by_cases h : (obj.any fun p => decide (p.1 = k)) = true
  · unfold objInsert
    rw [if_pos h, if_pos h, objKeys_map_overwrite]
  · unfold objInsert
    rw [if_neg h, if_neg h]
    simp [objKeys]

theorem objKeys_nodup_objInsert {α : Type} (obj : List (String × α)) (k : String)
    (v : α) (hd : (objKeys obj).Nodup) : (objKeys (objInsert obj k v)).Nodup := by
  rw [objKeys_objInsert]
  by_cases h : (obj.any fun p => decide (p.1 = k)) = true
  · rw [if_pos h]
    exact hd
  · rw [if_neg h]
    have hk : k ∉ objKeys obj := by
      intro hmem
      apply h
      rw [List.any_eq_true]
      rcases List.mem_map.mp hmem with ⟨p, hp, hpk⟩
      exact ⟨p, hp, by simp [hpk]⟩
    rw [List.nodup_append]
    refine ⟨hd, List.nodup_singleton k, ?_⟩
    intro a ha hb
    rw [List.mem_singleton] at hb
    subst hb
    exact hk ha

/-! ## Characterising the formatted row objects

`formatRow` assigns `obj[header] = row[i] || ""` left to right, so the entry
finally held for a name is the cell at the LAST position where that name
occurs in the header list, and each distinct name owns exactly one entry.
-/

/-- Index of the last occurrence of `n` in `l` (meaningful when `n ∈ l`). -/
def lastIdxOf : List String → String → Nat
  | [], _ => 0
  | _ :: t, n => if n ∈ t then lastIdxOf t n + 1 else 0

theorem objGet_formatRowAux (headers : List String) :
    ∀ (row : List String) (obj : List (String × String)) (i : Nat) (n : String),
    objGet (formatRowAux obj headers row i) n =
      if n ∈ headers then some (row.getD (i + lastIdxOf headers n) "")
      else objGet obj n := by
  induction headers with
  | nil =>
    intro row obj i n
    simp [formatRowAux]
  | cons h t ih =>
    intro row obj i n
    simp only [formatRowAux]
    rw [ih]
    by_cases hmem : n ∈ t
    · rw [if_pos hmem, if_pos (List.mem_cons_of_mem h hmem)]
      have harith : i + 1 + lastIdxOf t n = i + lastIdxOf (h :: t) n := by
        simp only [lastIdxOf, if_pos hmem]
        omega
      rw [harith]
    · rw [if_neg hmem, objGet_objInsert]
      by_cases hnh : n = h
      · subst hnh
        rw [if_pos rfl, if_pos (List.mem_cons_self n t)]
        simp only [lastIdxOf, if_neg hmem]
        rw [Nat.add_zero]
      · rw [if_neg hnh, if_neg (fun hc => (List.mem_cons.mp hc).elim hnh hmem)]

theorem objGet_formatRow (headers row : List String) (n : String) :
    objGet (formatRow headers row) n =
      if n ∈ headers then some (row.getD (lastIdxOf headers n) "") else none := by
  show objGet (formatRowAux [] headers row 0) n = _
  rw [objGet_formatRowAux]
  simp [objGet]

theorem objKeys_nodup_formatRowAux (headers : List String) :
    ∀ (row : List String) (obj : List (String × String)) (i : Nat),
    (objKeys obj).Nodup → (objKeys (formatRowAux obj headers row i)).Nodup := by
  induction headers with
  | nil =>
    intro row obj i h
    simpa [formatRowAux] using h
  | cons h t ih =>
    intro row obj i hd
    simp only [formatRowAux]
    exact ih row _ (i + 1) (objKeys_nodup_objInsert obj h _ hd)

theorem objKeys_nodup_formatRow (headers row : List String) :
    (objKeys (formatRow headers row)).Nodup :=
  objKeys_nodup_formatRowAux headers row [] 0 (by simp [objKeys])

theorem le_lastIdxOf (l : List String) :
    ∀ i : Nat, i < l.length → i ≤ lastIdxOf l (l.getD i "") := by
  induction l with
  | nil =>
    intro i h
    simp at h
  | cons a t ih =>
    intro i h
    match i with
    | 0 => exact Nat.zero_le _
    | Nat.succ j =>
      have hj : j < t.length := by simpa using h
      have hmem : t.getD j "" ∈ t := by
        rw [List.getD_eq_getElem t "" hj]
        exact List.getElem_mem hj
      have hcons : (a :: t).getD (j + 1) "" = t.getD j "" := rfl
      rw [hcons]
      simp only [lastIdxOf, if_pos hmem]
      have := ih j hj
      omega

/-! ## Characterising the submit loop -/

theorem buildForm_error_of_find? (values : String → Option JsValue) :
    ∀ (fields : List FieldDesc) (f : FieldDesc),
    fields.find? (fun fd => jsFalsy (values fd.name)) = some f →
    buildForm values fields = .error (f.label ++ " is required") := by
  intro fields
  induction fields with
  | nil =>
    intro f h
    simp [List.find?] at h
  | cons g t ih =>
    intro f h
    by_cases hg : jsFalsy (values g.name) = true
    · simp only [List.find?, hg] at h
      injection h with h
      subst h
      simp [buildForm, hg]
    · have hg2 : jsFalsy (values g.name) = false := by
        simpa using hg
      simp only [List.find?, hg2] at h
      have ht := ih f h
      simp [buildForm, hg2, ht]

theorem buildForm_ok_of_all (values : String → Option JsValue) :
    ∀ fields : List FieldDesc,
    (∀ f ∈ fields, jsFalsy (values f.name) = false) →
    buildForm values fields = .ok (fields.map (fun f =>
      (f.name,
       if f.name = "num_pairs" then
         FormEntry.jsNumberOf ((values f.name).getD (.str ""))
       else
         FormEntry.raw ((values f.name).getD (.str ""))))) := by
  intro fields
  induction fields with
  | nil =>
    intro _
    rfl
  | cons g t ih =>
    intro h
    have hg : jsFalsy (values g.name) = false := h g (List.mem_cons_self g t)
    have ht := ih (fun f hf => h f (List.mem_cons_of_mem g hf))
    simp [buildForm, hg, ht]

/-! ## The claims -/

/-- C1: the Tabular Preview Pipeline maps the input "a,b\n1,2\n3" to exactly
the columns ["a","b"] and the rows [{a:"1",b:"2"}, {a:"3",b:""}]; and in
general, whenever a data row is shorter than the header row, the single entry
held for each header at a position beyond the end of the row — a missing
trailing cell — is the empty string. -/
theorem c1_short_row_filled_with_empty :
    parseCSV "a,b\n1,2\n3" =
      some { columns := ["a", "b"],
             rows := [[("a", "1"), ("b", "2")], [("a", "3"), ("b", "")]] } ∧
    ∀ (headers row : List String) (i : Nat), row.length ≤ i → i < headers.length →
      objGet (formatRow headers row) (headers.getD i "") = some "" := by
  constructor
  · decide
  · intro headers row i hrow hi
    rw [objGet_formatRow]
    have hmem : headers.getD i "" ∈ headers := by
      rw [List.getD_eq_getElem headers "" hi]
      exact List.getElem_mem hi
    rw [if_pos hmem]
    have hle : i ≤ lastIdxOf headers (headers.getD i "") := le_lastIdxOf headers i hi
    rw [List.getD_eq_default row "" (le_trans hrow hle)]

/-- C1 witness: the header list ["a","b"] with the one-cell data row ["1"]
yields the empty string for the trailing header "b". -/
theorem c1_short_row_filled_with_empty_witness :
    objGet (formatRow ["a", "b"] ["1"]) (["a", "b"].getD 1 "") = some "" :=
  c1_short_row_filled_with_empty.2 ["a", "b"] ["1"] 1 (by decide) (by decide)

/-- C2 counterexample: on the empty string the pipeline does NOT produce zero
columns: `"".trim().split("\n")` is `[""]` (JS split never returns an empty
array, so the `!rows.length` guard is dead), making `[""]` the header row —
one column whose name is the empty string. -/
theorem c2_empty_input_counterexample :
    parseCSV "" = some { columns := [""], rows := [] } ∧
    ({ columns := [""], rows := [] } : TablePreview).columns.length ≠ 0 := by
  decide

/-- C2 amended: the Tabular Preview Pipeline, applied to the empty string,
produces a preview with exactly one column, whose name is the empty string,
and zero rows. -/
theorem c2_empty_input_amended :
    parseCSV "" = some { columns := [""], rows := [] } := by
  decide

/-- C5 counterexample: editing the field "model" while the sft recipe is
selected and then switching the selection to rag_qa leaves the previously
entered value in FormValues — React preserves the useState cells of the
still-mounted, un-keyed Dashboard instance, so nothing is reset. -/
theorem c5_form_values_counterexample :
    (appRun appInit
      [.editField "model" (.str "gpt-4"), .setSelectedDataset "rag_qa"]).dashboardForm =
      some [("model", JsValue.str "gpt-4")] ∧
    (appRun appInit
      [.editField "model" (.str "gpt-4"), .setSelectedDataset "rag_qa"]).selectedDataset =
      "rag_qa" := by
  decide

/-- C5 amended: a change of the selected recipe leaves the FormValues mapping
unchanged — every value entered under the previously selected recipe remains;
the mapping is reinitialised only when the generate page is unmounted and
remounted, not on recipe selection. -/
theorem c5_form_values_amended (s : AppState) (k : String) :
    (appStep s (.setSelectedDataset k)).dashboardForm = s.dashboardForm :=
  rfl

/-- C8: changing the selected dataset type issues exactly one list fetch,
GET /datasets?dataset_type=[key] for the new key, and the response replaces
the displayed file list unconditionally — the stored list is the response,
whatever list (of whatever previous type) was displayed before. -/
theorem c8_type_change_single_fetch (s : DatasetsState) (k : String) :
    (handleTypeChange s k).1 =
      [DsRequest.getReq (BASE_URL ++ "/datasets?dataset_type=" ++ k)] ∧
    ∀ files, ((handleTypeChange s k).2 files).datasets = files ∧
      ((handleTypeChange s k).2 files).datasetType = k :=
  ⟨rfl, fun _ => ⟨rfl, rfl⟩⟩

/-- C9: a delete action issues the DELETE and then — after it resolves —
exactly one re-fetch of the file list of the currently selected type, for any
prior state (in particular for any prior displayed list). -/
theorem c9_delete_then_single_refetch (s : DatasetsState) (filename : String) :
    (deleteDataset s filename).1 =
      [DsRequest.deleteReq (BASE_URL ++ "/datasets/" ++ s.datasetType ++ "/" ++ filename),
       DsRequest.getReq (BASE_URL ++ "/datasets?dataset_type=" ++ s.datasetType)] :=
  rfl

/-- C10: with duplicated header names the column list keeps every duplicate
occurrence (concretely, "a,a,b\n1,2,3" keeps columns ["a","a","b"]), while
each produced row object holds exactly one entry per distinct name — its key
list has no duplicates — and that entry carries the cell at the position of
the LAST occurrence of the name in the header row, so the cells at all
earlier occurrences are lost (the row above keeps "2", not "1"). -/
theorem c10_duplicate_headers_keep_last :
    parseCSV "a,a,b\n1,2,3" =
      some { columns := ["a", "a", "b"], rows := [[("a", "2"), ("b", "3")]] } ∧
    (∀ headers row : List String, ((formatRow headers row).map Prod.fst).Nodup) ∧
    (∀ (headers row : List String) (n : String), n ∈ headers →
      objGet (formatRow headers row) n = some (row.getD (lastIdxOf headers n) "")) := by
  refine ⟨by decide, ?_, ?_⟩
  · intro headers row
    exact objKeys_nodup_formatRow headers row
  · intro headers row n hmem
    rw [objGet_formatRow, if_pos hmem]

/-- C10 witness: for headers ["a","a","b"] and row ["1","2","3"], the single
entry for "a" holds the cell at the last occurrence, "2". -/
theorem c10_duplicate_headers_keep_last_witness :
    objGet (formatRow ["a", "a", "b"] ["1", "2", "3"]) "a" = some "2" :=
  c10_duplicate_headers_keep_last.2.2 ["a", "a", "b"] ["1", "2", "3"] "a" (by decide)

/-- C3: for every recipe and every FormValues mapping in which some declared
field holds an absent value (key missing, or holding the empty string — the
falsy cases of the stored value), submit raises the validation error naming
the label of the FIRST such field in declaration order, and issues no POST.
The first-absent field is expressed through find? on the declared field
list. -/
theorem c3_validation_error_no_post (apiBase k : String) (config : Config)
    (values : String → Option JsValue) (resp : BackendResponse) (f : FieldDesc)
    (_hk : datasetConfigs k = some config)
    (hf : config.fields.find? (fun fd => jsFalsy (values fd.name)) = some f) :
    postsOf (handleSubmit apiBase config values resp) = [] ∧
    retainedMessage (handleSubmit apiBase config values resp) =
      some (some (.failure (f.label ++ " is required"))) := by
  have hb := buildForm_error_of_find? values config.fields f hf
  constructor
  · simp [handleSubmit, hb, postsOf]
  · simp [handleSubmit, hb, retainedMessage, messagesOf]

/-- C3 witness: the empty FormValues mapping under the sft recipe fails on
its first field, labelled Topic, with no POST issued. -/
theorem c3_validation_error_no_post_witness :
    postsOf (handleSubmit "" sftConfig (fun _ => none)
      { ok := true, detail := none, message := none }) = [] ∧
    retainedMessage (handleSubmit "" sftConfig (fun _ => none)
      { ok := true, detail := none, message := none }) =
      some (some (.failure ("Topic" ++ " is required"))) :=
  c3_validation_error_no_post "" "sft" sftConfig (fun _ => none)
    { ok := true, detail := none, message := none }
    { name := "topic", label := "Topic", kind := .text, options := [], step := none }
    (by decide) (by decide)

/-- C4: for every recipe and every FormValues mapping in which all declared
fields hold a present (truthy) value, submit issues exactly one POST, to the
recipe endpoint appended to the base URL, whose multipart payload has exactly
one entry per FieldDescriptor in declaration order: the entry of a field
named exactly "num_pairs" is the numeric coercion (JS Number) of the entered
value, every other entry is the entered value unchanged. -/
theorem c4_payload_one_entry_per_field (apiBase k : String) (config : Config)
    (values : String → Option JsValue) (resp : BackendResponse)
    (_hk : datasetConfigs k = some config)
    (hall : ∀ f ∈ config.fields, jsFalsy (values f.name) = false) :
    postsOf (handleSubmit apiBase config values resp) =
      [(apiBase ++ config.endpoint,
        config.fields.map (fun f =>
          (f.name,
           if f.name = "num_pairs" then
             FormEntry.jsNumberOf ((values f.name).getD (.str ""))
           else
             FormEntry.raw ((values f.name).getD (.str "")))))] := by
  have hb := buildForm_ok_of_all values config.fields hall
  rcases resp with ⟨ok, detail, message⟩
  cases ok
  · simp [handleSubmit, hb, postsOf]
  · simp [handleSubmit, hb, postsOf]

/-- C4 witness: the sft recipe with every field entered as the string "5"
posts one payload with its seven entries in declaration order, num_pairs
coerced and all others as entered. -/
theorem c4_payload_one_entry_per_field_witness :
    postsOf (handleSubmit "http://x" sftConfig (fun _ => some (.str "5"))
      { ok := true, detail := none, message := none }) =
      [("http://x" ++ "/generate/sft",
        [("topic", FormEntry.raw (.str "5")),
         ("model", FormEntry.raw (.str "5")),
         ("style", FormEntry.raw (.str "5")),
         ("num_pairs", FormEntry.jsNumberOf (.str "5")),
         ("language", FormEntry.raw (.str "5")),
         ("temperature", FormEntry.raw (.str "5")),
         ("output_name", FormEntry.raw (.str "5"))])] :=
  c4_payload_one_entry_per_field "http://x" "sft" sftConfig (fun _ => some (.str "5"))
    { ok := true, detail := none, message := none }
    (by decide) (by decide)

/-- C6: once a submit attempt reaches its POST (the field loop produced a
payload), the outcome retained after the response settles is: on a success
status, Success carrying the backend message field; on a non-success status,
Failure carrying the backend detail field when the body holds a non-empty
one, and the generic "Backend error" text when the detail field is missing
or empty (the falsy fallback of result.detail). -/
theorem c6_outcome_from_response (apiBase k : String) (config : Config)
    (values : String → Option JsValue) (resp : BackendResponse)
    (body : List (String × FormEntry))
    (_hk : datasetConfigs k = some config)
    (hb : buildForm values config.fields = .ok body) :
    (resp.ok = true →
      retainedMessage (handleSubmit apiBase config values resp) =
        some (some (.success resp.message))) ∧
    (∀ d, resp.ok = false → resp.detail = some d → d ≠ "" →
      retainedMessage (handleSubmit apiBase config values resp) =
        some (some (.failure d))) ∧
    (resp.ok = false → (resp.detail = none ∨ resp.detail = some "") →
      retainedMessage (handleSubmit apiBase config values resp) =
        some (some (.failure "Backend error"))) := by
  rcases resp with ⟨ok, detail, message⟩
  refine ⟨?_, ?_, ?_⟩
  · intro hok
    subst hok
    simp [handleSubmit, hb, retainedMessage, messagesOf]
  · intro d hok hd hne
    subst hok
    subst hd
    simp [handleSubmit, hb, retainedMessage, messagesOf, jsOrString, hne]
  · intro hok hd
    subst hok
    rcases hd with hd | hd <;> subst hd <;>
      simp [handleSubmit, hb, retainedMessage, messagesOf, jsOrString]

/-- C6 witness: a non-success response carrying detail "boom" leaves the
Failure outcome "boom" for a fully populated sft submission. -/
theorem c6_outcome_from_response_witness :
    retainedMessage (handleSubmit "" sftConfig (fun _ => some (.str "5"))
      { ok := false, detail := some "boom", message := none }) =
      some (some (.failure "boom")) :=
  (c6_outcome_from_response "" "sft" sftConfig (fun _ => some (.str "5"))
    { ok := false, detail := some "boom", message := none }
    [("topic", FormEntry.raw (.str "5")),
     ("model", FormEntry.raw (.str "5")),
     ("style", FormEntry.raw (.str "5")),
     ("num_pairs", FormEntry.jsNumberOf (.str "5")),
     ("language", FormEntry.raw (.str "5")),
     ("temperature", FormEntry.raw (.str "5")),
     ("output_name", FormEntry.raw (.str "5"))]
    (by decide) rfl).2.1 "boom" rfl rfl (by decide)

/-- C7: the message cell is a single Option, so at most one outcome is ever
retained; every submit attempt first sets loading (disabling the submit
control, rendered as disabled while loading) and clears the retained outcome
to none, and only effects occurring AFTER that clearing — in particular any
POST — follow, with the loading flag cleared again as the very last effect
of the attempt (the finally clause).  The middle of the trace contains no
setLoading effect at all, so the only loading transitions are the leading
true and the trailing false: the control stays disabled from the start of
the attempt until it settles. -/
theorem c7_clear_before_post_disable_during (apiBase : String) (config : Config)
    (values : String → Option JsValue) (resp : BackendResponse) :
    ∃ mid, handleSubmit apiBase config values resp =
      Effect.setLoading true :: Effect.setMessage none ::
        (mid ++ [Effect.setLoading false]) ∧
      ∀ b : Bool, Effect.setLoading b ∉ mid := by
  cases hb : buildForm values config.fields with
  | error msg =>
    refine ⟨[Effect.setMessage (some (.failure msg))], ?_, ?_⟩
    · simp [handleSubmit, hb]
    · intro b hmem
      simp at hmem
  | ok body =>
    cases hok : resp.ok with
    | true =>
      refine ⟨[Effect.post (apiBase ++ config.endpoint) body,
               Effect.setMessage (some (.success resp.message))], ?_, ?_⟩
      · simp [handleSubmit, hb, hok]
      · intro b hmem
        simp at hmem
    | false =>
      refine ⟨[Effect.post (apiBase ++ config.endpoint) body,
               Effect.setMessage
                 (some (.failure (jsOrString resp.detail "Backend error")))], ?_, ?_⟩
      · simp [handleSubmit, hb, hok]
      · intro b hmem
        simp at hmem
